import Mathlib

/-!
Verification of the PurC HVML interpreter core against its
natural-language specification.

The definitions below are a shallow embedding of the C sources:

* `Source/PurC/variant/variant-array.c`   (array variant, listeners)
* `Source/PurC/document/document.c`       (document type retrieval)
* `Source/PurC/pcrdr/pcrdr.c`             (renderer operation table)
* `Source/PurC/interpreter/rdr.c`         (large-page streaming)
* `Source/PurC/interpreter/iterate.c`     (iterate verb)
* `Source/PurC/vcm/vcm.c`                 (VCM evaluator)
* `Source/PurC/interpreter/elements/archetype.c` (archetype verb)
* `Source/PurC/dvobjs/stream-hbdbus.c`    (HBDBus handshake)

Pointer identity tests of the C code (such as `array != value`) are
modelled by explicit boolean parameters or structural equality, as noted
at each definition.  Machine integers that cannot overflow on the
modelled paths are embedded as `Nat`/`Int`.
-/

namespace PurC

/-- The dynamic value model (spec section 3.1).  Only the kinds the claims
exercise are carried; numeric payloads are embedded as `Int` because none
of the verified paths computes with them. -/
inductive Variant where
  | undefined : Variant
  | nullV : Variant
  | boolean (b : Bool) : Variant
  | number (d : Int) : Variant
  | longint (i : Int) : Variant
  | ulongint (u : Nat) : Variant
  | str (s : String) : Variant
  | byteSeq (bytes : List Nat) : Variant
  | longdouble (d : Int) : Variant
  | arr (elems : List Variant) : Variant
  | obj (keys : List Variant) (vals : List Variant) : Variant

mutual

/-- Structural equality of variants, used to embed the value comparisons
of the C code (`purc_variant_is_equal_to` style checks and the pointer
test `v != value` of `purc_variant_array_set`, since distinct pointers to
structurally distinct values always compare unequal). -/
def Variant.beq : Variant → Variant → Bool
  | .undefined, .undefined => true
  | .nullV, .nullV => true
  | .boolean a, .boolean b => a == b
  | .number a, .number b => a == b
  | .longint a, .longint b => a == b
  | .ulongint a, .ulongint b => a == b
  | .str a, .str b => a == b
  | .byteSeq a, .byteSeq b => a == b
  | .longdouble a, .longdouble b => a == b
  | .arr a, .arr b => Variant.listBeq a b
  | .obj ka va, .obj kb vb => Variant.listBeq ka kb && Variant.listBeq va vb
  | _, _ => false

/-- Pointwise `Variant.beq` over lists of variants. -/
def Variant.listBeq : List Variant → List Variant → Bool
  | [], [] => true
  | x :: xs, y :: ys => Variant.beq x y && Variant.listBeq xs ys
  | _, _ => false

end

/-- One registered variant listener: `struct pcvar_listener` carries the
atom of the event name (`grown`, `shrunk`, `change`), a handler and a
context pointer; `id` stands for the handler/ctxt identity. -/
structure PcvarListener where
  id : Nat
  name : String
deriving DecidableEq

/-- A record of one handler invocation performed by the dispatch loops in
variant-array.c: which listener fired, with which message type and
arguments. -/
structure ListenerCall where
  listenerId : Nat
  msgType : String
  args : List Variant

/-- The array variant object: the backing `pcutils_arrlist` (a slot is
`none` when the C cell holds NULL) together with its listener list. -/
structure ArrayData where
  al : List (Option Variant)
  listeners : List PcvarListener

/-- Embeds `grown` of variant-array.c verbatim, including its guard
`if (!list_empty(&array->listeners)) return;`: when the listener list is
non-empty the function returns at once, otherwise it iterates the (then
empty) list.  The returned list holds the handler invocations performed. -/
def grown (array : ArrayData) (value : Variant) : List ListenerCall :=
  if !array.listeners.isEmpty then []
  else (array.listeners.filter (fun l => l.name = "grown")).map
    (fun l => { listenerId := l.id, msgType := "grown", args := [value] })

/-- Embeds `shrunk` of variant-array.c, with the same inverted guard as
`grown`. -/
def shrunk (array : ArrayData) (value : Variant) : List ListenerCall :=
  if !array.listeners.isEmpty then []
  else (array.listeners.filter (fun l => l.name = "shrunk")).map
    (fun l => { listenerId := l.id, msgType := "shrunk", args := [value] })

/-- Embeds `change` of variant-array.c, with the same inverted guard; the
handler receives the new value then the old one. -/
def change (array : ArrayData) (o n : Variant) : List ListenerCall :=
  if !array.listeners.isEmpty then []
  else (array.listeners.filter (fun l => l.name = "change")).map
    (fun l => { listenerId := l.id, msgType := "change", args := [n, o] })

/-- Modelled from the spec: `pcutils_arrlist_put_idx` lives in a utility
file that is not under src/.  Following the container contract of spec
sections 3.1 and 4.1, storing at an index beyond the current length
extends the list, leaving the intermediate cells NULL (`none`); storing
inside the list replaces the cell. -/
def pcutils_arrlist_put_idx (al : List (Option Variant)) (idx : Nat)
    (v : Variant) : List (Option Variant) :=
  if idx < al.length then al.set idx (some v)
  else al ++ List.replicate (idx - al.length) none ++ [some v]

/-- Embeds `_fill_empty_with_undefined` of variant-array.c: every NULL
slot of the backing list is replaced by a fresh undefined variant. -/
def fill_empty_with_undefined (al : List (Option Variant)) :
    List (Option Variant) :=
  al.map (fun x => match x with
    | none => some Variant.undefined
    | some v => some v)

/-- Embeds `purc_variant_array_insert_before` of variant-array.c.  The C
pointer test `array != value` is passed in as `value_is_array` (true when
`value` is the very array object being mutated).  On success the new
array object is returned together with the listener invocations fired;
note that the source fires `shrunk` here, not `grown`. -/
def purc_variant_array_insert_before (array : ArrayData) (idx : Int)
    (value : Variant) (value_is_array : Bool) :
    Option (ArrayData × List ListenerCall) :=
  if 0 ≤ idx ∧ value_is_array = false then
    let nr := array.al.length
    let i : Nat := if idx.toNat ≥ nr then nr else idx.toNat
    let al := array.al.insertIdx i (some value)
    some ({ array with al := al }, shrunk array value)
  else
    none

/-- Embeds `purc_variant_array_append` of variant-array.c: insert before
the current length. -/
def purc_variant_array_append (array : ArrayData) (value : Variant)
    (value_is_array : Bool) : Option (ArrayData × List ListenerCall) :=
  purc_variant_array_insert_before array (Int.ofNat array.al.length) value
    value_is_array

/-- Embeds `purc_variant_array_prepend` of variant-array.c. -/
def purc_variant_array_prepend (array : ArrayData) (value : Variant)
    (value_is_array : Bool) : Option (ArrayData × List ListenerCall) :=
  purc_variant_array_insert_before array 0 value value_is_array

/-- Embeds `purc_variant_array_set` of variant-array.c.  For `idx` at or
beyond the length the cell is stored with `pcutils_arrlist_put_idx`, the
intermediate NULL cells are filled with undefined, and `grown` fires; for
an interior `idx`, when the stored value differs structurally from the
incumbent, `change` fires and the cell is replaced. -/
def purc_variant_array_set (array : ArrayData) (idx : Int)
    (value : Variant) (value_is_array : Bool) :
    Option (ArrayData × List ListenerCall) :=
  if 0 ≤ idx ∧ value_is_array = false then
    let nr := array.al.length
    if idx.toNat ≥ nr then
      let al := fill_empty_with_undefined
        (pcutils_arrlist_put_idx array.al idx.toNat value)
      some ({ array with al := al }, grown array value)
    else
      match array.al.get? idx.toNat with
      | some (some v) =>
          if Variant.beq v value then
            some (array, [])
          else
            some ({ array with al := array.al.set idx.toNat (some value) },
              change array v value)
      | _ => some (array, [])
  else
    none

/-! Document type retrieval, from Source/PurC/document/document.c and the
discriminator strings of include/purc-document.h. -/

/-- The enumeration purc_document_type of purc-document.h
(PCDOC_K_TYPE_FIRST = void, then plain, html, xml, xgml). -/
inductive PurcDocumentType where
  | void : PurcDocumentType
  | plain : PurcDocumentType
  | html : PurcDocumentType
  | xml : PurcDocumentType
  | xgml : PurcDocumentType
deriving DecidableEq

/-- PCDOC_K_TYPE_FIRST + i, the enum value at index i of the table. -/
def doc_type_of_index : Nat → PurcDocumentType
  | 0 => .void
  | 1 => .plain
  | 2 => .html
  | 3 => .xml
  | _ => .xgml

/-- The static doc_types table of document.c: the discriminator string
(macros PCDOC_TYPE_* of purc-document.h) and whether the ops pointer is
non-NULL — only the void and html entries carry an ops table; the plain,
xml and xgml slots are NULL (commented out in the source). -/
def doc_types : List (String × Bool) :=
  [("void", true), ("plain", false), ("html", true),
   ("xml", false), ("xgml", false)]

/-- The scan loop inside purc_document_retrieve_type: find the first
entry whose name matches; return its enum value when it has ops, else
break to the fallback (void); a missed table also falls back to void. -/
def retrieve_scan (s : String) (i : Nat) :
    List (String × Bool) → PurcDocumentType
  | [] => .void
  | (name, ops) :: rest =>
      if s = name then (if ops then doc_type_of_index i else .void)
      else retrieve_scan s (i + 1) rest

/-- Embeds purc_document_retrieve_type of document.c: a NULL target name
goes straight to the fallback.  The function never touches the per-thread
error slot (unlike purc_document_new below). -/
def purc_document_retrieve_type (target_name : Option String) :
    PurcDocumentType :=
  match target_name with
  | none => .void
  | some s => retrieve_scan s 0 doc_types

/-- Index of a document type in the doc_types table. -/
def doc_type_index : PurcDocumentType → Nat
  | .void => 0
  | .plain => 1
  | .html => 2
  | .xml => 3
  | .xgml => 4

/-- Embeds purc_document_new of document.c: dispatch through the type's
ops table; a NULL ops table reports PURC_ERROR_NOT_IMPLEMENTED and
returns NULL. -/
def purc_document_new (t : PurcDocumentType) :
    Except String PurcDocumentType :=
  match doc_types.get? (doc_type_index t) with
  | some (_, true) => .ok t
  | _ => .error "PURC_ERROR_NOT_IMPLEMENTED"

/-! Renderer operation table, from Source/PurC/pcrdr/pcrdr.c.  The
PCRDR_OPERATION_* macros are defined in a public header that is not under
src/; their string values are taken from the per-row comments of the
pcrdr_opatoms initializer itself. -/

/-- The operation strings of the static pcrdr_opatoms table of pcrdr.c,
row by row and in the order of the initializer. -/
def pcrdr_opatoms : List String :=
  ["startSession", "endSession",
   "createWorkspace", "updateWorkspace", "destroyWorkspace",
   "createPlainWindow", "updatePlainWindow", "destroyPlainWindow",
   "createTabbedWindow", "updateTabbedWindow", "destroyTabbedWindow",
   "createTabpage", "updateTabpage", "destroyTabpage",
   "load", "writeBegin", "writeMore", "writeEnd",
   "append", "prepend", "insertBefore", "insertAfter",
   "displace", "update", "erase", "clear"]

/-- The renderer operation set exactly as the specification enumerates it
(spec section 6, "Renderer operations (closed set, stable order)"); this
definition follows the spec wording, to be compared with the table read
off the source. -/
def spec_renderer_operations : List String :=
  ["startSession", "endSession",
   "createWorkspace", "updateWorkspace", "destroyWorkspace",
   "createPlainWindow", "updatePlainWindow", "destroyPlainWindow",
   "setPageGroups", "addPageGroups", "removePageGroup",
   "createWidget", "updateWidget", "destroyWidget",
   "load", "writeBegin", "writeMore", "writeEnd",
   "register", "revoke",
   "append", "prepend", "insertBefore", "insertAfter",
   "displace", "update", "erase", "clear",
   "callMethod", "getProperty", "setProperty"]

/-! Large-page streaming, from Source/PurC/interpreter/rdr.c. -/

/-- DEF_LEN_ONE_WRITE of rdr.c: 1024 * 10 bytes per streamed chunk. -/
def DEF_LEN_ONE_WRITE : Nat := 1024 * 10

/-- Byte length of a serialized document represented as its UTF-8 code
points (each element being the bytes of one complete code point). -/
def bytesLen (cps : List (List Nat)) : Nat := (cps.map List.length).sum

/-- Modelled from the spec: pcutils_string_check_utf8_len is in a utility
file not under src/.  Per spec section 6 (chunks are always truncated at
a valid UTF-8 boundary) it yields the longest prefix of complete code
points whose byte length stays within the limit, and the remainder. -/
def check_utf8_len : List (List Nat) → Nat →
    (List (List Nat) × List (List Nat))
  | [], _ => ([], [])
  | cp :: rest, limit =>
      if cp.length ≤ limit then
        let r := check_utf8_len rest (limit - cp.length)
        (cp :: r.1, r.2)
      else ([], cp :: rest)

/-- The renderer operations issued by the page-load paths of rdr.c. -/
inductive RdrOp where
  | load : RdrOp
  | writeBegin : RdrOp
  | writeMore : RdrOp
  | writeEnd : RdrOp
deriving DecidableEq

/-- One request sent to the renderer by the page-load code: the operation
and the document bytes carried as payload (as code points, so that chunk
boundaries are visible). -/
structure RdrChunk where
  op : RdrOp
  payload : List (List Nat)

/-- The writting loop of rdr_page_control_load_large_page, entered with
rest the still unwritten tail of the document.  The condition
`len_wrotten + DEF_LEN_ONE_WRITE > len_content` is the same as
`bytesLen rest < DEF_LEN_ONE_WRITE`, triggering the writeEnd request with
the whole remainder; otherwise a writeMore chunk is truncated at a UTF-8
boundary (an empty chunk is a failure), and the loop stops without a
writeEnd when the chunk consumed the remainder exactly
(`len_wrotten == len_content` after the writeMore). -/
def write_loop (rest : List (List Nat)) : Option (List RdrChunk) :=
  if bytesLen rest < DEF_LEN_ONE_WRITE then
    some [{ op := .writeEnd, payload := rest }]
  else
    match h : check_utf8_len rest DEF_LEN_ONE_WRITE with
    | ([], _) => none
    | (cp :: tk, rm) =>
        if rm.isEmpty then some [{ op := .writeMore, payload := cp :: tk }]
        else (write_loop rm).map
          (fun chunks => { op := .writeMore, payload := cp :: tk } :: chunks)
termination_by rest.length
decreasing_by
  have hap : ∀ (s : List (List Nat)) (limit : Nat),
      (check_utf8_len s limit).1 ++ (check_utf8_len s limit).2 = s := by
    intro s
    induction s with
    | nil => intro limit; simp [check_utf8_len]
    | cons c cs ih =>
        intro limit
        simp only [check_utf8_len]
        split
        · simp only [List.cons_append, List.cons.injEq, true_and]
          exact ih (limit - c.length)
        · simp
  have hap2 := hap rest DEF_LEN_ONE_WRITE
  rw [h] at hap2
  have hlen := congrArg List.length hap2
  simp only [List.length_append, List.length_cons] at hlen
  omega

/-- Embeds rdr_page_control_load_large_page of rdr.c: a writeBegin request
with the first UTF-8-aligned chunk (failure when no complete code point
fits), then — unless the writeBegin already consumed the whole document —
the writting loop. -/
def rdr_page_control_load_large_page (doc : List (List Nat)) :
    Option (List RdrChunk) :=
  match check_utf8_len doc DEF_LEN_ONE_WRITE with
  | ([], _) => none
  | (cp :: tk, rm) =>
      if rm.isEmpty then some [{ op := .writeBegin, payload := cp :: tk }]
      else (write_loop rm).map
        (fun chunks => { op := .writeBegin, payload := cp :: tk } :: chunks)

/-- Embeds the non-move-buffer arm of pcintr_rdr_page_control_load of
rdr.c: a document larger than DEF_LEN_ONE_WRITE streams through
rdr_page_control_load_large_page, a smaller one is sent as a single load
request; on a move-buffer transport the document entity travels by
reference inside one load request. -/
def pcintr_rdr_page_control_load (moveBuffer : Bool)
    (doc : List (List Nat)) : Option (List RdrChunk) :=
  if moveBuffer then
    some [{ op := .load, payload := doc }]
  else if bytesLen doc > DEF_LEN_ONE_WRITE then
    rdr_page_control_load_large_page doc
  else
    some [{ op := .load, payload := doc }]

/-! The iterate verb, from Source/PurC/interpreter/iterate.c.  The
executor plugin behind `purc_exec_ops` is modelled, per the contract of
spec section 4.6.4, as the finite list of values it yields, with the
iterator being a position in that list; the element-driver loop
(after_pushed / select_child / on_popping / rerun) lives in the
interpreter core outside src/ and is modelled from spec section 4.6.1. -/

/-- Modelled from the spec: `it_begin` of a finite executor returns the
first iterator, or NULL when the input yields no element. -/
def exe_it_begin (l : List Variant) : Option Nat :=
  if l.isEmpty then none else some 0

/-- Modelled from the spec: `it_next` advances the iterator, or returns
NULL when no element remains. -/
def exe_it_next (l : List Variant) (it : Nat) : Option Nat :=
  if it + 1 < l.length then some (it + 1) else none

/-- Modelled from the spec: `it_value` reads the value under the
iterator. -/
def exe_it_value (l : List Variant) (it : Nat) : Option Variant :=
  l.get? it

/-- Embeds on_popping of iterate.c: `it = ctxt->ops.it_next(...)` and the
frame pops (returns true) exactly when the new iterator is NULL.  The
returned option is the new `ctxt->it`: `none` means on_popping answered
true. -/
def iterate_on_popping (l : List Variant) (it : Nat) : Option Nat :=
  exe_it_next l it

/-- Observable counters of one whole run of an iterate element: how often
the driver called rerun and on_popping, how often on_popping answered
true, the final frame idx, and the successive values of the frame's
result variable. -/
structure IterStats where
  rerunCount : Nat
  onPoppingCalls : Nat
  onPoppingTrue : Nat
  finalIdx : Nat
  results : List Variant

/-- Modelled from the spec (section 4.6.1 step 3): the driver loop after
the body of the iterate element ran once — on_popping pops the frame when
it answers true; otherwise the driver invokes rerun, which is embedded
from iterate.c: `frame->idx += 1` and the result variable is refreshed
from it_value, and the body runs again. -/
def iterate_drive (l : List Variant) (it idx rerunC popC popT : Nat)
    (results : List Variant) : IterStats :=
  match h : iterate_on_popping l it with
  | none =>
      { rerunCount := rerunC, onPoppingCalls := popC + 1,
        onPoppingTrue := popT + 1, finalIdx := idx, results := results }
  | some it2 =>
      iterate_drive l it2 (idx + 1) (rerunC + 1) (popC + 1) popT
        (results ++ [(exe_it_value l it2).getD Variant.undefined])
termination_by l.length - it
decreasing_by
  simp only [iterate_on_popping, exe_it_next] at h
  split at h
  · cases h
    omega
  · cases h

/-- Embeds after_pushed / post_process of iterate.c restricted to a
well-formed element (an `on` value present, the rule selecting a finite
executor yielding `l`), composed with the modelled driver loop: the
executor instance is created, it_begin supplies the first iterator (NULL
fails the push), the result variable is seeded from it_value, the body
runs, and the driver loop takes over.  `frame->idx` starts at 0. -/
def iterate_run (l : List Variant) : Option IterStats :=
  match exe_it_begin l with
  | none => none
  | some it0 =>
      some (iterate_drive l it0 0 0 0 0
        [(exe_it_value l it0).getD Variant.undefined])

/-- The attributes of an iterate element after evaluation, as stored in
`struct ctxt_for_iterate` of iterate.c (`on`, `rule_attr`, `onlyif`). -/
structure IterateAttrs where
  onVal : Option Variant
  byRule : Option String
  onlyif : Option Variant

/-- Outcome of after_pushed of iterate.c. -/
inductive AfterPushedResult where
  | assertAbort : AfterPushedResult
  | failed : AfterPushedResult
  | ok : AfterPushedResult
deriving DecidableEq

/-- Embeds after_pushed of iterate.c: after the attribute walk stored the
evaluated attributes, the source runs
`if (ctxt->onlyif != PURC_VARIANT_INVALID) { PRINT_VARIANT(...); PC_ASSERT(0); }`
— an element carrying an onlyif attribute dies on PC_ASSERT(0) before
post_process ever runs.  Otherwise post_process fails (returns NULL) when
`on` is missing or it_begin yields no iterator, and succeeds else;
`l` is the value list of the executor selected by the rule. -/
def iterate_after_pushed (attrs : IterateAttrs) (l : List Variant) :
    AfterPushedResult :=
  if attrs.onlyif.isSome then
    .assertAbort
  else
    match attrs.onVal with
    | none => .failed
    | some _ =>
        match exe_it_begin l with
        | none => .failed
        | some _ => .ok

/-! The VCM evaluator, from Source/PurC/vcm/vcm.c. -/

/-- The VCM parse-tree node kinds of vcm.c (`enum pcvcm_node_type`), with
the children of a node carried in place of the pctree child list. -/
inductive PcvcmNode where
  | object (children : List PcvcmNode) : PcvcmNode
  | arrayN (children : List PcvcmNode) : PcvcmNode
  | stringN (s : String) : PcvcmNode
  | nullN : PcvcmNode
  | booleanN (b : Bool) : PcvcmNode
  | numberN (d : Int) : PcvcmNode
  | longintN (i : Int) : PcvcmNode
  | ulongintN (u : Nat) : PcvcmNode
  | longdoubleN (d : Int) : PcvcmNode
  | byteSequence (bytes : List Nat) : PcvcmNode
  | funcConcatString (children : List PcvcmNode) : PcvcmNode
  | funcGetVariable (children : List PcvcmNode) : PcvcmNode
  | funcGetElement (children : List PcvcmNode) : PcvcmNode
  | funcCallGetter (children : List PcvcmNode) : PcvcmNode
  | funcCallSetter (children : List PcvcmNode) : PcvcmNode

/-- Modelled from the spec: purc_variant_object_set lives in a variant
source file not under src/; per spec section 4.1 an existing key keeps
its position and takes the new value (last-write-wins), a new key is
appended in insertion order.  Keys compare by value. -/
def purc_variant_object_set (keys vals : List Variant) (k v : Variant) :
    List Variant × List Variant :=
  match keys.findIdx? (fun x => Variant.beq x k) with
  | some i => (keys, vals.set i v)
  | none => (keys ++ [k], vals ++ [v])

mutual

/-- Embeds pcvcm_node_to_variant of vcm.c.  The switch handles object,
array, string, null, boolean, number, longint, ulongint, longdouble and
byte-sequence nodes; every other kind — including
PCVCM_NODE_TYPE_FUNC_GET_VARIABLE, get-element, call-getter, call-setter
and concat-string — falls into the `default: //TODO` arm and produces a
null variant. -/
def pcvcm_node_to_variant : PcvcmNode → Variant
  | .object children =>
      let kv := pcvcm_object_fold [] [] children
      .obj kv.1 kv.2
  | .arrayN children => .arr (pcvcm_array_children children)
  | .stringN s => .str s
  | .nullN => .nullV
  | .booleanN b => .boolean b
  | .numberN d => .number d
  | .longintN i => .longint i
  | .ulongintN u => .ulongint u
  | .longdoubleN d => .longdouble d
  | .byteSequence bs => .byteSeq bs
  | .funcConcatString _ => .nullV
  | .funcGetVariable _ => .nullV
  | .funcGetElement _ => .nullV
  | .funcCallGetter _ => .nullV
  | .funcCallSetter _ => .nullV

/-- Embeds pcvcm_node_object_to_variant of vcm.c: children are consumed
in (key, value) pairs, each stored with purc_variant_object_set; a
trailing unpaired child is dropped. -/
def pcvcm_object_fold (keys vals : List Variant) :
    List PcvcmNode → List Variant × List Variant
  | k :: v :: rest =>
      let kv := purc_variant_object_set keys vals
        (pcvcm_node_to_variant k) (pcvcm_node_to_variant v)
      pcvcm_object_fold kv.1 kv.2 rest
  | _ => (keys, vals)

/-- Embeds pcvcm_node_array_to_variant of vcm.c: children are evaluated
and appended in order. -/
def pcvcm_array_children : List PcvcmNode → List Variant
  | [] => []
  | c :: rest => pcvcm_node_to_variant c :: pcvcm_array_children rest

end

/-- Modelled from the spec (section 4.3): the evaluation context carries
the scope chain (innermost first), the document scope and the process
scope.  pcvcm_eval of vcm.c receives the interpreter stack but discards
it (`UNUSED_PARAM(stack)`, `// TODO : need pcintr_stack_t`); the context
is modelled regardless so the resolution claim can be stated against
it. -/
structure EvalContext where
  scopeChain : List (List (String × Variant))
  documentScope : List (String × Variant)
  processScope : List (String × Variant)

/-- Embeds pcvcm_eval of vcm.c: a NULL tree evaluates to null; otherwise
pcvcm_node_to_variant runs on the tree — the stack argument is unused in
the source, so the evaluation cannot depend on `stack`. -/
def pcvcm_eval (tree : Option PcvcmNode) (stack : EvalContext) : Variant :=
  match tree with
  | none => .nullV
  | some t => pcvcm_node_to_variant t

/-- Modelled from the spec: resolution of a get-variable name against the
scope chain innermost first, then the document scope, then the process
scope (spec section 4.3).  This is the behaviour the claim ascribes to
the evaluator, stated separately so it can be compared with pcvcm_eval. -/
def spec_resolve_variable (ctx : EvalContext) (name : String) :
    Option Variant :=
  match ctx.scopeChain.findSome? (fun scope => scope.lookup name) with
  | some v => some v
  | none =>
      match ctx.documentScope.lookup name with
      | some v => some v
      | none => ctx.processScope.lookup name

/-! The archetype verb, from
Source/PurC/interpreter/elements/archetype.c. -/

/-- Outcome of the fetch continuation of an archetype element. -/
inductive ArchetypeOutcome where
  | userStop : ArchetypeOutcome
  | assertAbort : ArchetypeOutcome
  | exceptNoData : ArchetypeOutcome
  | exceptOther : ArchetypeOutcome
  | bound (underHead : Bool) (key : String) (value : Variant) : ArchetypeOutcome

/-- RESP_CODE_USER_STOP: its numeric value is defined outside src/; the
continuation only compares ret_code against it, so any value apart from
the HTTP statuses serves. -/
def RESP_CODE_USER_STOP : Int := -1

/-- Embeds on_sync_continuation of archetype.c.  `resp` is the response
stream (`none` when absent) carrying the JSON parse result of the body.
A USER_STOP code ends the frame silently; a missing stream or a status
other than 200 raises PURC_ERROR_NO_DATA and dispatches the exception
without binding anything; on the 200 path the body is parsed and the very
next statement is `PC_ASSERT(0); // Not implemented yet`. -/
def archetype_on_sync_continuation (ret_code : Int)
    (resp : Option (Option Variant)) (nameAttr srcAttr : String)
    (under_head : Bool) : ArchetypeOutcome :=
  if ret_code = RESP_CODE_USER_STOP then .userStop
  else if resp.isNone ∨ ret_code ≠ 200 then .exceptNoData
  else .assertAbort

/-- Embeds the same continuation as compiled with assertions disabled
(PC_ASSERT a no-op), to document what the 200 path would do: the name the
binding is stored under is read with
`purc_variant_get_string_const(ctxt->src)` — the src attribute, not the
name attribute — and bound in document scope under head, else in the
parent element scope. -/
def archetype_continuation_ndebug (ret_code : Int)
    (resp : Option (Option Variant)) (nameAttr srcAttr : String)
    (under_head : Bool) : ArchetypeOutcome :=
  if ret_code = RESP_CODE_USER_STOP then .userStop
  else if resp.isNone ∨ ret_code ≠ 200 then .exceptNoData
  else
    match resp with
    | some (some v) => .bound under_head srcAttr v
    | _ => .exceptOther

/-! The HBDBus handshake, from Source/PurC/dvobjs/stream-hbdbus.c. -/

/-- The states of the HBDBus bootstrap state machine
(`enum bus_state`). -/
inductive BusState where
  | expectChallenge : BusState
  | expectAuthResult : BusState
  | expectRegularMsg : BusState
  | uncertain : BusState
deriving DecidableEq

/-- Embeds the BS_EXPECT_CHALLENGE arm of on_message in stream-hbdbus.c,
returning the state after the `done:` epilogue.  The local `int ret` is
declared but never assigned: the call `send_auth_info(stream, ch_code);`
discards its result and the following `if (ret == 0)` reads the
indeterminate value, passed in here as `ret_uninit`.  `send_ok` is the
actual result of send_auth_info; on failure it records an error symbol,
and any recorded error symbol routes the epilogue to BS_UNCERTAIN (a
failed get_challenge_code likewise records one). -/
def on_message_expect_challenge (challenge_ok : Bool) (send_ok : Bool)
    (ret_uninit : Int) : BusState :=
  if !challenge_ok then
    .uncertain
  else
    let st := if ret_uninit = 0 then BusState.expectAuthResult
      else BusState.expectChallenge
    if !send_ok then .uncertain else st

/-! Helper lemmas. -/

/-- The grown dispatcher performs no handler invocation on any array: its
guard returns early exactly when listeners exist. -/
theorem grown_eq_nil (a : ArrayData) (v : Variant) : grown a v = [] := by
  unfold grown
  rcases h : a.listeners with _ | ⟨x, xs⟩ <;> simp [h]

/-- The shrunk dispatcher performs no handler invocation on any array. -/
theorem shrunk_eq_nil (a : ArrayData) (v : Variant) : shrunk a v = [] := by
  unfold shrunk
  rcases h : a.listeners with _ | ⟨x, xs⟩ <;> simp [h]

/-- The change dispatcher performs no handler invocation on any array. -/
theorem change_eq_nil (a : ArrayData) (o n : Variant) : change a o n = [] := by
  unfold change
  rcases h : a.listeners with _ | ⟨x, xs⟩ <;> simp [h]

theorem bytesLen_nil : bytesLen [] = 0 := rfl

theorem bytesLen_cons (c : List Nat) (cs : List (List Nat)) :
    bytesLen (c :: cs) = c.length + bytesLen cs := by
  simp [bytesLen]

theorem bytesLen_append (a b : List (List Nat)) :
    bytesLen (a ++ b) = bytesLen a + bytesLen b := by
  simp [bytesLen]

theorem bytesLen_replicate (n : Nat) (b : List Nat) :
    bytesLen (List.replicate n b) = n * b.length := by
  simp [bytesLen, List.map_replicate, List.sum_replicate, smul_eq_mul]

/-- The taken prefix and the remainder of a UTF-8 truncation concatenate
back to the input. -/
theorem check_utf8_len_append (s : List (List Nat)) (limit : Nat) :
    (check_utf8_len s limit).1 ++ (check_utf8_len s limit).2 = s := by
  induction s generalizing limit with
  | nil => simp [check_utf8_len]
  | cons c cs ih =>
      simp only [check_utf8_len]
      split
      · simp only [List.cons_append, List.cons.injEq, true_and]
        exact ih (limit - c.length)
      · simp

/-- The taken prefix of a UTF-8 truncation stays within the byte limit. -/
theorem check_utf8_len_bytes_le (s : List (List Nat)) (limit : Nat) :
    bytesLen (check_utf8_len s limit).1 ≤ limit := by
  induction s generalizing limit with
  | nil => simp [check_utf8_len, bytesLen]
  | cons c cs ih =>
      simp only [check_utf8_len]
      split
      · rename_i hc
        have := ih (limit - c.length)
        rw [bytesLen_cons]
        omega
      · simp [bytesLen]

/-- A UTF-8 truncation of a non-empty input whose first code point fits
inside the limit takes at least that code point. -/
theorem check_utf8_len_cons (c : List Nat) (cs : List (List Nat))
    (limit : Nat) (h : c.length ≤ limit) :
    check_utf8_len (c :: cs) limit =
      (c :: (check_utf8_len cs (limit - c.length)).1,
       (check_utf8_len cs (limit - c.length)).2) := by
  simp [check_utf8_len, h]

/-- UTF-8 truncation of a run of single-byte code points takes `limit`
of them (or all, when fewer remain). -/
theorem check_utf8_len_replicate (b : Nat) (n limit : Nat) :
    check_utf8_len (List.replicate n [b]) limit =
      (List.replicate (min n limit) [b], List.replicate (n - limit) [b]) := by
  induction n generalizing limit with
  | zero => simp [check_utf8_len]
  | succ n ih =>
      cases limit with
      | zero => simp [List.replicate_succ, check_utf8_len]
      | succ l =>
          simp only [List.replicate_succ, check_utf8_len, List.length_cons,
            List.length_nil]
          have h1 : (0 : Nat) + 1 ≤ l + 1 := by omega
          simp only [if_pos h1]
          rw [show l + 1 - (0 + 1) = l by omega, ih l]
          simp only [Prod.mk.injEq]
          constructor
          · rw [show min (n + 1) (l + 1) = min n l + 1 by omega,
              List.replicate_succ]
          · congr 1
            omega

/-- Filling NULL slots is the identity on a well-formed cell list. -/
theorem fill_map_some (l : List Variant) :
    fill_empty_with_undefined (l.map some) = l.map some := by
  induction l with
  | nil => rfl
  | cons x xs ih => simpa [fill_empty_with_undefined] using ih

/-- Filling NULL slots distributes over append. -/
theorem fill_append (a b : List (Option Variant)) :
    fill_empty_with_undefined (a ++ b) =
      fill_empty_with_undefined a ++ fill_empty_with_undefined b := by
  simp [fill_empty_with_undefined]

/-- Filling a run of NULL slots yields a run of undefined cells. -/
theorem fill_replicate_none (n : Nat) :
    fill_empty_with_undefined (List.replicate n none) =
      List.replicate n (some Variant.undefined) := by
  simp [fill_empty_with_undefined, List.map_replicate]

theorem fill_singleton_some (v : Variant) :
    fill_empty_with_undefined [some v] = [some v] := rfl

/-! Claim theorems. -/

/-- C1: the claim says a registered post-listener for grow fires exactly
once per growing mutation and receives the inserted value.  The code
fires nothing: every dispatcher in variant-array.c returns early when the
listener list is non-empty (the emptiness test is inverted), so the
dispatch loop below the guard is dead code; concretely, appending to a
one-element array carrying a registered grown-listener performs the
mutation but invokes zero handlers (and the growing path would dispatch
through `shrunk` anyway). -/
theorem C1_grow_listener_never_invoked :
    (∀ (a : ArrayData) (v : Variant),
      grown a v = [] ∧ shrunk a v = [] ∧ ∀ o, change a o v = []) ∧
    purc_variant_array_append
        { al := [some (Variant.number 1)],
          listeners := [{ id := 7, name := "grown" }] }
        (Variant.number 2) false =
      some ({ al := [some (Variant.number 1), some (Variant.number 2)],
              listeners := [{ id := 7, name := "grown" }] }, []) := by
  refine ⟨fun a v => ⟨grown_eq_nil a v, shrunk_eq_nil a v,
    fun o => change_eq_nil a o v⟩, ?_⟩
  rfl

/-- C9: setting a cell at or beyond the current size succeeds, stores the
value there, fills the skipped cells with undefined and leaves the
existing elements unchanged.  The array is well formed (no NULL cells)
and the stored value is distinct from the array object itself
(`value_is_array = false` embeds the pointer test `array != value`). -/
theorem C9_array_set_beyond_end (elems : List Variant) (L : List PcvarListener)
    (idx : Nat) (v : Variant) (h : elems.length ≤ idx) :
    purc_variant_array_set { al := elems.map some, listeners := L }
        (Int.ofNat idx) v false =
      some ({ al := elems.map some ++
                List.replicate (idx - elems.length) (some Variant.undefined) ++
                [some v],
              listeners := L },
            grown { al := elems.map some, listeners := L } v) := by
  unfold purc_variant_array_set
  have h0 : (0 : Int) ≤ Int.ofNat idx := Int.ofNat_nonneg idx
  rw [if_pos ⟨h0, rfl⟩]
  have hidx : (Int.ofNat idx).toNat = idx := rfl
  simp only [hidx, List.length_map]
  rw [if_pos (show idx ≥ elems.length from h)]
  unfold pcutils_arrlist_put_idx
  simp only [List.length_map]
  rw [if_neg (by omega)]
  rw [List.append_assoc, fill_append, fill_map_some, fill_append,
    fill_replicate_none, fill_singleton_some, ← List.append_assoc]

/-- C9 witness: a one-element array set at index 3. -/
theorem C9_array_set_beyond_end_witness :
    [Variant.number 1].length ≤ 3 ∧
    purc_variant_array_set { al := [Variant.number 1].map some, listeners := [] }
        (Int.ofNat 3) (Variant.str "x") false =
      some ({ al := [Variant.number 1].map some ++
                List.replicate (3 - [Variant.number 1].length)
                  (some Variant.undefined) ++ [some (Variant.str "x")],
              listeners := [] },
            grown { al := [Variant.number 1].map some, listeners := [] }
              (Variant.str "x")) :=
  ⟨by simp, C9_array_set_beyond_end [Variant.number 1] [] 3 (Variant.str "x")
    (by simp)⟩

/-- C10: purc_document_retrieve_type maps html to the html type and every
other input — NULL, a string outside the table, or plain/xml/xgml whose
ops slot is NULL (and void itself) — to the void type; the function body
never touches the error slot, so no error is reported on the fallback. -/
theorem C10_retrieve_type_characterization (target : Option String) :
    purc_document_retrieve_type target =
      (if target = some "html" then PurcDocumentType.html
       else PurcDocumentType.void) := by
  rcases target with _ | s
  · rfl
  · by_cases h1 : s = "void"
    · subst h1; rfl
    · by_cases h2 : s = "plain"
      · subst h2; rfl
      · by_cases h3 : s = "html"
        · subst h3; rfl
        · by_cases h4 : s = "xml"
          · subst h4; rfl
          · by_cases h5 : s = "xgml"
            · subst h5; rfl
            · simp [purc_document_retrieve_type, doc_types, retrieve_scan,
                h1, h2, h3, h4, h5]

/-- C7 counterexample: the operation table of pcrdr.c is not the list the
spec enumerates — the code carries createTabbedWindow/updateTabbedWindow/
destroyTabbedWindow and createTabpage/updateTabpage/destroyTabpage where
the spec lists the page-group and widget operations, and it lacks
register, revoke, callMethod, getProperty and setProperty. -/
theorem C7_opatoms_ne_spec_list : pcrdr_opatoms ≠ spec_renderer_operations := by
  decide

/-- C7 amended: the closed operation set known to the runtime has 26
distinct entries, in the spec order except that rows 8 to 13 are the
tabbed-window and tabpage sextet instead of the page-group and widget
operations, and the register/revoke and callMethod/getProperty/setProperty
rows of the spec are absent. -/
theorem C7_opatoms_table :
    pcrdr_opatoms.length = 26 ∧ pcrdr_opatoms.Nodup ∧
    pcrdr_opatoms =
      spec_renderer_operations.take 8 ++
      ["createTabbedWindow", "updateTabbedWindow", "destroyTabbedWindow",
       "createTabpage", "updateTabpage", "destroyTabpage"] ++
      (spec_renderer_operations.drop 14).take 4 ++
      (spec_renderer_operations.drop 20).take 8 := by
  refine ⟨rfl, by decide, rfl⟩

/-- C5: the claim says an onlyif attribute is re-evaluated once per
iteration step and ends the iteration when false.  The code never gets
there: after_pushed of iterate.c runs PC_ASSERT(0) as soon as the walked
attributes contain an evaluated onlyif value, before any executor or
iteration state exists, and neither on_popping nor rerun reads the stored
onlyif. -/
theorem C5_onlyif_hits_assert :
    iterate_after_pushed
      { onVal := some (Variant.arr [Variant.number 10]), byRule := none,
        onlyif := some (Variant.boolean true) }
      [Variant.number 10] = AfterPushedResult.assertAbort := rfl

/-- C6: the claim says a get-variable node resolves its child literal
against the scope chain, then document scope, then process scope.  The
evaluator of vcm.c takes the interpreter stack but discards it and its
switch has no get-variable arm, so the node falls into the
`default: //TODO` case: with `x` bound to 42 in the innermost scope the
spec-modelled resolution yields 42 while pcvcm_eval yields null. -/
theorem C6_get_variable_not_resolved :
    pcvcm_eval (some (PcvcmNode.funcGetVariable [PcvcmNode.stringN "x"]))
      { scopeChain := [[("x", Variant.number 42)]], documentScope := [],
        processScope := [] } = Variant.nullV ∧
    spec_resolve_variable
      { scopeChain := [[("x", Variant.number 42)]], documentScope := [],
        processScope := [] } "x" = some (Variant.number 42) := by
  constructor
  · simp [pcvcm_eval, pcvcm_node_to_variant]
  · rfl

/-- C2: the claim says a successful fetch (status 200) leaves a document
scope binding named by the `name` attribute, and a failed fetch raises
no-data and binds nothing.  The failure half matches the code; the
success half does not: on_sync_continuation of archetype.c runs
`PC_ASSERT(0); // Not implemented yet` right after parsing the body, and
the binding code after that (reached with assertions compiled out) reads
the binding key from `ctxt->src` — the src attribute, not name. -/
theorem C2_archetype_success_path_unimplemented :
    archetype_on_sync_continuation 200
        (some (some (Variant.obj [] []))) "T" "file://a.json" true =
      ArchetypeOutcome.assertAbort ∧
    archetype_on_sync_continuation 404 none "T" "file://a.json" true =
      ArchetypeOutcome.exceptNoData ∧
    archetype_continuation_ndebug 200
        (some (some (Variant.obj [] []))) "T" "file://a.json" true =
      ArchetypeOutcome.bound true "file://a.json" (Variant.obj [] []) := by
  refine ⟨?_, ?_, ?_⟩ <;> rfl

/-- Branch equation for the writting loop when the UTF-8 truncation is
known and non-empty. -/
theorem write_loop_eq_of_check (rest tk rm : List (List Nat))
    (hb : ¬ bytesLen rest < DEF_LEN_ONE_WRITE)
    (hck : check_utf8_len rest DEF_LEN_ONE_WRITE = (tk, rm))
    (htk : tk ≠ []) :
    write_loop rest =
      (if rm.isEmpty then some [{ op := RdrOp.writeMore, payload := tk }]
       else (write_loop rm).map
         (fun chunks => { op := RdrOp.writeMore, payload := tk } :: chunks)) := by
  rw [write_loop.eq_def]
  rw [if_neg hb]
  split
  · rename_i snd heq
    rw [hck] at heq
    cases heq
    exact absurd rfl htk
  · rename_i cp tk2 rm2 heq
    rw [hck] at heq
    cases heq
    rfl

/-- Branch equation for the large-page loader when the UTF-8 truncation is
known and non-empty. -/
theorem large_page_eq_of_check (doc tk rm : List (List Nat))
    (hck : check_utf8_len doc DEF_LEN_ONE_WRITE = (tk, rm))
    (htk : tk ≠ []) :
    rdr_page_control_load_large_page doc =
      (if rm.isEmpty then some [{ op := RdrOp.writeBegin, payload := tk }]
       else (write_loop rm).map
         (fun chunks => { op := RdrOp.writeBegin, payload := tk } :: chunks)) := by
  unfold rdr_page_control_load_large_page
  split
  · rename_i snd heq
    rw [hck] at heq
    cases heq
    exact absurd rfl htk
  · rename_i cp tk2 rm2 heq
    rw [hck] at heq
    cases heq
    rfl

/-- Correctness of the writting loop: it succeeds on any remainder of
well-formed code points, its chunk payloads concatenate to the remainder,
every writeMore chunk stays within the one-write limit, and the emitted
operations are writeMore repeated, optionally closed by one writeEnd. -/
theorem write_loop_spec :
    ∀ (fuel : Nat) (rest : List (List Nat)), rest.length ≤ fuel →
      (∀ cp ∈ rest, 1 ≤ cp.length ∧ cp.length ≤ DEF_LEN_ONE_WRITE) →
      ∃ chunks, write_loop rest = some chunks ∧
        (chunks.map RdrChunk.payload).flatten = rest ∧
        (∀ c ∈ chunks, c.op ≠ RdrOp.writeEnd →
          bytesLen c.payload ≤ DEF_LEN_ONE_WRITE) ∧
        (∃ k, chunks.map RdrChunk.op = List.replicate k RdrOp.writeMore ∨
              chunks.map RdrChunk.op =
                List.replicate k RdrOp.writeMore ++ [RdrOp.writeEnd]) := by
  intro fuel
  induction fuel with
  | zero =>
      intro rest hlen hcp
      have hnil : rest = [] := List.length_eq_zero.mp (by omega)
      subst hnil
      have hwl : write_loop [] =
          some [{ op := RdrOp.writeEnd, payload := [] }] := by
        unfold write_loop
        rw [if_pos (by simp [bytesLen, DEF_LEN_ONE_WRITE])]
      exact ⟨_, hwl, by simp, by simp, 0, Or.inr (by simp)⟩
  | succ n ih =>
      intro rest hlen hcp
      by_cases hb : bytesLen rest < DEF_LEN_ONE_WRITE
      · have hwl : write_loop rest =
            some [{ op := RdrOp.writeEnd, payload := rest }] := by
          unfold write_loop
          rw [if_pos hb]
        exact ⟨_, hwl, by simp, by simp, 0, Or.inr (by simp)⟩
      · obtain ⟨c, cs, rfl⟩ : ∃ c cs, rest = c :: cs := by
          cases rest with
          | nil => exact absurd (by simp [bytesLen, DEF_LEN_ONE_WRITE]) hb
          | cons c cs => exact ⟨c, cs, rfl⟩
        have hc := hcp c (List.mem_cons_self c cs)
        have hck := check_utf8_len_cons c cs DEF_LEN_ONE_WRITE hc.2
        have happ := check_utf8_len_append (c :: cs) DEF_LEN_ONE_WRITE
        have hble := check_utf8_len_bytes_le (c :: cs) DEF_LEN_ONE_WRITE
        rw [hck] at happ hble
        have hwl := write_loop_eq_of_check (c :: cs) _ _ hb hck (by simp)
        by_cases hRe :
            (check_utf8_len cs (DEF_LEN_ONE_WRITE - c.length)).2.isEmpty
        · rw [if_pos hRe] at hwl
          have hR : (check_utf8_len cs (DEF_LEN_ONE_WRITE - c.length)).2 = [] :=
            List.isEmpty_iff.mp hRe
          rw [hR, List.append_nil] at happ
          refine ⟨_, hwl, by simpa using happ, ?_, 1, Or.inl (by simp)⟩
          intro ch hch hop
          simp only [List.mem_singleton] at hch
          subst hch
          exact hble
        · rw [if_neg hRe] at hwl
          have hR : (check_utf8_len cs (DEF_LEN_ONE_WRITE - c.length)).2 ≠ [] :=
            fun h0 => hRe (by simp [h0])
          have hlenR :
              (check_utf8_len cs (DEF_LEN_ONE_WRITE - c.length)).2.length ≤ n := by
            have := congrArg List.length happ
            simp only [List.length_append, List.length_cons] at this
            simp only [List.length_cons] at hlen
            omega
          have hcpR : ∀ cp ∈ (check_utf8_len cs (DEF_LEN_ONE_WRITE - c.length)).2,
              1 ≤ cp.length ∧ cp.length ≤ DEF_LEN_ONE_WRITE := by
            intro cp hcpm
            exact hcp cp (by rw [← happ]; exact List.mem_append_right _ hcpm)
          obtain ⟨chunks2, hwl2, hjoin2, hbytes2, k, hops2⟩ :=
            ih _ hlenR hcpR
          rw [hwl2] at hwl
          rw [Option.map_some'] at hwl
          refine ⟨_, hwl, ?_, ?_, ?_⟩
          · simp only [List.map_cons, List.flatten_cons]
            rw [hjoin2]
            exact happ
          · intro ch hch hop
            simp only [List.mem_cons] at hch
            rcases hch with rfl | hch
            · exact hble
            · exact hbytes2 ch hch hop
          · refine ⟨k + 1, ?_⟩
            simp only [List.map_cons]
            rcases hops2 with hops2 | hops2
            · exact Or.inl (by rw [hops2, List.replicate_succ])
            · exact Or.inr (by rw [hops2, List.replicate_succ, List.cons_append])

/-- Correctness of the large-page loader on a document of well-formed
code points whose serialization exceeds one write: the writeBegin payload
and the loop payloads concatenate to the document, each non-writeEnd
chunk stays within the one-write limit, and the operations are writeBegin
then writeMore repeated, optionally closed by one writeEnd. -/
theorem rdr_large_page_spec (doc : List (List Nat))
    (hcp : ∀ cp ∈ doc, 1 ≤ cp.length ∧ cp.length ≤ DEF_LEN_ONE_WRITE)
    (hbig : bytesLen doc > DEF_LEN_ONE_WRITE) :
    ∃ chunks, rdr_page_control_load_large_page doc = some chunks ∧
      (chunks.map RdrChunk.payload).flatten = doc ∧
      (∀ c ∈ chunks, c.op ≠ RdrOp.writeEnd →
        bytesLen c.payload ≤ DEF_LEN_ONE_WRITE) ∧
      (∃ k, chunks.map RdrChunk.op =
              RdrOp.writeBegin :: List.replicate k RdrOp.writeMore ∨
            chunks.map RdrChunk.op =
              RdrOp.writeBegin ::
                (List.replicate k RdrOp.writeMore ++ [RdrOp.writeEnd])) := by
  obtain ⟨c, cs, rfl⟩ : ∃ c cs, doc = c :: cs := by
    cases doc with
    | nil =>
        exfalso
        simp [bytesLen] at hbig
    | cons c cs => exact ⟨c, cs, rfl⟩
  have hc := hcp c (List.mem_cons_self c cs)
  have hck := check_utf8_len_cons c cs DEF_LEN_ONE_WRITE hc.2
  have happ := check_utf8_len_append (c :: cs) DEF_LEN_ONE_WRITE
  have hble := check_utf8_len_bytes_le (c :: cs) DEF_LEN_ONE_WRITE
  rw [hck] at happ hble
  have hlp := large_page_eq_of_check (c :: cs) _ _ hck (by simp)
  have hR : (check_utf8_len cs (DEF_LEN_ONE_WRITE - c.length)).2 ≠ [] := by
    intro h0
    rw [h0, List.append_nil] at happ
    rw [happ] at hble
    omega
  rw [if_neg (by simpa using hR)] at hlp
  have hcpR : ∀ cp ∈ (check_utf8_len cs (DEF_LEN_ONE_WRITE - c.length)).2,
      1 ≤ cp.length ∧ cp.length ≤ DEF_LEN_ONE_WRITE := by
    intro cp hcpm
    exact hcp cp (by rw [← happ]; exact List.mem_append_right _ hcpm)
  obtain ⟨chunks2, hwl2, hjoin2, hbytes2, k, hops2⟩ :=
    write_loop_spec _ _ (le_refl _) hcpR
  rw [hwl2] at hlp
  rw [Option.map_some'] at hlp
  refine ⟨_, hlp, ?_, ?_, ?_⟩
  · simp only [List.map_cons, List.flatten_cons]
    rw [hjoin2]
    exact happ
  · intro ch hch hop
    simp only [List.mem_cons] at hch
    rcases hch with rfl | hch
    · exact hble
    · exact hbytes2 ch hch hop
  · refine ⟨k, ?_⟩
    simp only [List.map_cons]
    rcases hops2 with hops2 | hops2
    · exact Or.inl (by rw [hops2])
    · exact Or.inr (by rw [hops2])

/-- C3 counterexample: a 20480-byte ASCII document (twice the one-write
limit) streams as a writeBegin of 10240 bytes followed by a single
writeMore of 10240 bytes and no writeEnd at all: the loop stops as soon
as a writeMore consumes the remainder exactly, so the claimed final
writeEnd request does not exist for this load. -/
theorem C3_counterexample_no_writeEnd :
    bytesLen (List.replicate 20480 ([97] : List Nat)) > DEF_LEN_ONE_WRITE ∧
    (pcintr_rdr_page_control_load false
        (List.replicate 20480 ([97] : List Nat))).map
      (List.map RdrChunk.op) = some [RdrOp.writeBegin, RdrOp.writeMore] := by
  have hbytes : bytesLen (List.replicate 20480 ([97] : List Nat)) = 20480 := by
    rw [bytesLen_replicate]; norm_num
  have hbig : bytesLen (List.replicate 20480 ([97] : List Nat)) >
      DEF_LEN_ONE_WRITE := by
    rw [hbytes]; norm_num [DEF_LEN_ONE_WRITE]
  refine ⟨hbig, ?_⟩
  have hck : check_utf8_len (List.replicate 20480 ([97] : List Nat))
      DEF_LEN_ONE_WRITE =
      (List.replicate 10240 ([97] : List Nat),
       List.replicate 10240 ([97] : List Nat)) := by
    rw [check_utf8_len_replicate]
    norm_num [DEF_LEN_ONE_WRITE]
  have hck2 : check_utf8_len (List.replicate 10240 ([97] : List Nat))
      DEF_LEN_ONE_WRITE =
      (List.replicate 10240 ([97] : List Nat), []) := by
    rw [check_utf8_len_replicate]
    norm_num [DEF_LEN_ONE_WRITE]
  have hrep_ne : List.replicate 10240 ([97] : List Nat) ≠ [] := by
    intro h0
    have hl0 := congrArg List.length h0
    simp only [List.length_replicate, List.length_nil] at hl0
    omega
  have hb2 : ¬ bytesLen (List.replicate 10240 ([97] : List Nat)) <
      DEF_LEN_ONE_WRITE := by
    rw [bytesLen_replicate]
    norm_num [DEF_LEN_ONE_WRITE]
  have hwend : write_loop (List.replicate 10240 ([97] : List Nat)) =
      some [{ op := RdrOp.writeMore,
              payload := List.replicate 10240 ([97] : List Nat) }] := by
    rw [write_loop_eq_of_check _ _ _ hb2 hck2 hrep_ne]
    rfl
  have hlp := large_page_eq_of_check _ _ _ hck hrep_ne
  rw [if_neg (by rw [List.isEmpty_eq_true]; exact hrep_ne), hwend,
    Option.map_some'] at hlp
  unfold pcintr_rdr_page_control_load
  rw [if_neg (by simp), if_pos hbig, hlp]
  rfl

/-- C3 amended: on a non-move-buffer transport, a document larger than
10240 bytes streams as one writeBegin, then writeMore requests, then an
optional final writeEnd — the writeEnd is omitted exactly when a
writeMore chunk consumes the remaining content exactly; the payloads
concatenate to the serialized document, every chunk except a writeEnd is
at most 10240 bytes, and every chunk is a sequence of complete code
points, so no chunk boundary splits a UTF-8 code point. -/
theorem C3_streaming_chunks (doc : List (List Nat))
    (hcp : ∀ cp ∈ doc, 1 ≤ cp.length ∧ cp.length ≤ DEF_LEN_ONE_WRITE)
    (hbig : bytesLen doc > DEF_LEN_ONE_WRITE) :
    ∃ chunks, pcintr_rdr_page_control_load false doc = some chunks ∧
      (chunks.map RdrChunk.payload).flatten = doc ∧
      (∀ c ∈ chunks, c.op ≠ RdrOp.writeEnd →
        bytesLen c.payload ≤ DEF_LEN_ONE_WRITE) ∧
      (∃ k, chunks.map RdrChunk.op =
              RdrOp.writeBegin :: List.replicate k RdrOp.writeMore ∨
            chunks.map RdrChunk.op =
              RdrOp.writeBegin ::
                (List.replicate k RdrOp.writeMore ++ [RdrOp.writeEnd])) := by
  have h := rdr_large_page_spec doc hcp hbig
  unfold pcintr_rdr_page_control_load
  rw [if_neg (by simp), if_pos hbig]
  exact h

/-- C3 witness: a 10241-byte ASCII document. -/
theorem C3_streaming_chunks_witness :
    (∀ cp ∈ List.replicate 10241 ([97] : List Nat),
      1 ≤ cp.length ∧ cp.length ≤ DEF_LEN_ONE_WRITE) ∧
    bytesLen (List.replicate 10241 ([97] : List Nat)) > DEF_LEN_ONE_WRITE ∧
    (∃ chunks, pcintr_rdr_page_control_load false
        (List.replicate 10241 ([97] : List Nat)) = some chunks ∧
      (chunks.map RdrChunk.payload).flatten =
        List.replicate 10241 ([97] : List Nat) ∧
      (∀ c ∈ chunks, c.op ≠ RdrOp.writeEnd →
        bytesLen c.payload ≤ DEF_LEN_ONE_WRITE) ∧
      (∃ k, chunks.map RdrChunk.op =
              RdrOp.writeBegin :: List.replicate k RdrOp.writeMore ∨
            chunks.map RdrChunk.op =
              RdrOp.writeBegin ::
                (List.replicate k RdrOp.writeMore ++ [RdrOp.writeEnd]))) := by
  have h1 : ∀ cp ∈ List.replicate 10241 ([97] : List Nat),
      1 ≤ cp.length ∧ cp.length ≤ DEF_LEN_ONE_WRITE := by
    intro cp hm
    rw [List.eq_of_mem_replicate hm]
    norm_num [DEF_LEN_ONE_WRITE]
  have h2 : bytesLen (List.replicate 10241 ([97] : List Nat)) >
      DEF_LEN_ONE_WRITE := by
    rw [bytesLen_replicate]
    norm_num [DEF_LEN_ONE_WRITE]
  exact ⟨h1, h2, C3_streaming_chunks _ h1 h2⟩

/-- Closed form of the iterate driver loop: entered with a valid iterator
it, it calls on_popping once per remaining element, answers true exactly
once at the end, and reruns once per element after the current one,
each rerun bumping idx and appending the next value to the observed
results. -/
theorem iterate_drive_spec :
    ∀ (fuel : Nat) (l : List Variant) (it idx rc pc pt : Nat)
      (res : List Variant), l.length - it ≤ fuel → it < l.length →
    iterate_drive l it idx rc pc pt res =
      { rerunCount := rc + (l.length - 1 - it),
        onPoppingCalls := pc + (l.length - it),
        onPoppingTrue := pt + 1,
        finalIdx := idx + (l.length - 1 - it),
        results := res ++ l.drop (it + 1) } := by
  intro fuel
  induction fuel with
  | zero =>
      intro l it idx rc pc pt res hfuel hit
      omega
  | succ n ih =>
      intro l it idx rc pc pt res hfuel hit
      rw [iterate_drive]
      split
      · rename_i heq
        simp only [iterate_on_popping, exe_it_next] at heq
        split at heq
        · cases heq
        · rename_i hge
          have hdrop : l.drop (it + 1) = [] :=
            List.drop_eq_nil_of_le (by omega)
          rw [hdrop, List.append_nil,
            show l.length - 1 - it = 0 by omega,
            show l.length - it = 1 by omega]
          simp
      · rename_i it2 heq
        simp only [iterate_on_popping, exe_it_next] at heq
        split at heq
        · rename_i hlt
          cases heq
          rw [ih l (it + 1) (idx + 1) (rc + 1) (pc + 1) pt _ (by omega) hlt]
          have hval : (exe_it_value l (it + 1)).getD Variant.undefined =
              l[it + 1] := by
            simp [exe_it_value, List.get?_eq_getElem?,
              List.getElem?_eq_getElem hlt]
          rw [hval, List.append_assoc, List.singleton_append,
            List.getElem_cons_drop l (it + 1) hlt,
            show rc + 1 + (l.length - 1 - (it + 1)) =
              rc + (l.length - 1 - it) by omega,
            show pc + 1 + (l.length - (it + 1)) = pc + (l.length - it) by omega,
            show idx + 1 + (l.length - 1 - (it + 1)) =
              idx + (l.length - 1 - it) by omega]
        · cases heq

/-- C4 counterexample: for a finite executor yielding three values the
claim demands three rerun invocations, but the run performs two — the
first value is consumed by after_pushed and only the remaining steps go
through rerun. -/
theorem C4_counterexample_three_elements :
    (iterate_run [Variant.number 10, Variant.number 20,
        Variant.number 30]).map IterStats.rerunCount = some 2 ∧
    ¬ ((iterate_run [Variant.number 10, Variant.number 20,
        Variant.number 30]).map IterStats.rerunCount = some 3) := by
  have hrun : iterate_run [Variant.number 10, Variant.number 20,
      Variant.number 30] =
      some { rerunCount := 2, onPoppingCalls := 3, onPoppingTrue := 1,
             finalIdx := 2, results := [Variant.number 10, Variant.number 20,
               Variant.number 30] } := by
    have hbegin : exe_it_begin [Variant.number 10, Variant.number 20,
        Variant.number 30] = some 0 := by simp [exe_it_begin]
    unfold iterate_run
    rw [hbegin]
    show some (iterate_drive [Variant.number 10, Variant.number 20,
      Variant.number 30] 0 0 0 0 0 [(exe_it_value [Variant.number 10,
        Variant.number 20, Variant.number 30] 0).getD Variant.undefined]) = _
    rw [iterate_drive_spec 3 _ 0 0 0 0 0 _ (by simp) (by simp)]
    simp [exe_it_value]
  rw [hrun]
  simp

/-- C4 amended: for every iterate verb whose executor yields a finite,
non-empty iteration of n elements, rerun is invoked exactly n - 1 times
(the first element is handled by after_pushed), on_popping is called n
times and answers true exactly once, each rerun increments frame.idx by
one (so idx ends at n - 1 after starting at 0) and refreshes the result
variable from it_value (so the observed results are exactly the yielded
values in order). -/
theorem C4_iterate_counts (l : List Variant) (h : l ≠ []) :
    iterate_run l =
      some { rerunCount := l.length - 1, onPoppingCalls := l.length,
             onPoppingTrue := 1, finalIdx := l.length - 1, results := l } := by
  have hlen : 0 < l.length := List.length_pos.mpr h
  have hbegin : exe_it_begin l = some 0 := by
    simp [exe_it_begin, List.isEmpty_iff, h]
  unfold iterate_run
  rw [hbegin]
  show some (iterate_drive l 0 0 0 0 0
    [(exe_it_value l 0).getD Variant.undefined]) = _
  rw [iterate_drive_spec l.length l 0 0 0 0 0 _ (by omega) hlen]
  have hval : (exe_it_value l 0).getD Variant.undefined = l[0] := by
    simp [exe_it_value, List.get?_eq_getElem?, List.getElem?_eq_getElem hlen]
  rw [hval, List.singleton_append,
    show (0 : Nat) + 1 = 0 + 1 from rfl]
  rw [show l[0] :: l.drop (0 + 1) = l.drop 0 from
    List.getElem_cons_drop l 0 hlen, List.drop_zero]
  simp

/-- C4 witness: a two-element executor reruns once. -/
theorem C4_iterate_counts_witness :
    ([Variant.number 10, Variant.number 20] ≠ ([] : List Variant)) ∧
    iterate_run [Variant.number 10, Variant.number 20] =
      some { rerunCount := [Variant.number 10, Variant.number 20].length - 1,
             onPoppingCalls := [Variant.number 10, Variant.number 20].length,
             onPoppingTrue := 1,
             finalIdx := [Variant.number 10, Variant.number 20].length - 1,
             results := [Variant.number 10, Variant.number 20] } :=
  ⟨by simp, C4_iterate_counts [Variant.number 10, Variant.number 20] (by simp)⟩

/-- C8: the claim says the expect-challenge handler moves to
expect-auth-result exactly when send_auth_info returns 0 and leaves the
state unchanged when the send fails.  In the code the scrutinee `ret` is
never assigned — the send result is discarded — so the transition tracks
the indeterminate value instead: with a successful send and a non-zero
indeterminate `ret` no transition happens, with value 0 it does, and a
failed send drives the state to uncertain (not unchanged) through the
recorded error symbol. -/
theorem C8_transition_reads_uninitialized_ret :
    on_message_expect_challenge true true 1 = BusState.expectChallenge ∧
    on_message_expect_challenge true true 0 = BusState.expectAuthResult ∧
    on_message_expect_challenge true false 0 = BusState.uncertain := by
  refine ⟨?_, ?_, ?_⟩ <;> rfl

end PurC
